import Mathlib

/-!
Verification development for the CML-to-PHP converter
(cml-parser: `parseCML`, `parseProperty`; php-generator: `generatePHP`,
`generateEnum`, `generateValueObject`, `generateEntity`, `mapTypeToPHP`,
path/namespace helpers).

The TypeScript source is embedded shallowly:

* JavaScript strings are Lean `String`s; the handful of string/regex
  operations the source uses (`trim`, `split`, `startsWith`, `endsWith`,
  `includes`, the fixed regular expressions of the parser) are modelled by
  executable functions over `List Char` defined below, each annotated with
  the JavaScript expression it models.
* The parser mutates a tree through "current" cursor references.  This is
  embedded with arenas: every created aggregate / entity / value object /
  enumeration is appended to a pool together with an `Option Nat` parent
  pointer recording where (if anywhere) it was attached at creation time;
  cursors are indices into the pools.  `assemble` rebuilds the returned
  model exactly as the JavaScript object graph would be observed.
* The generator's use of the external `js-php-generator` printing library
  is modelled structurally: a generated file's content is the structured
  PHP declaration the source builds (namespace, class/enum, properties,
  attributes, methods, bodies) rather than the printed text.
* User supplied regular expressions (path mapping rules) are executed via
  the platform `RegExp` engine in the source; the embedding abstracts that
  engine as a `RegexEngine` record, with a concrete literal-pattern
  instance `litRegex` used for concrete evaluations.
-/

set_option maxRecDepth 8192

/-! ## JavaScript string primitives over `List Char` -/

/-- JavaScript `\s` (ASCII part, which is all the sources ever meet). -/
def isJsWs (c : Char) : Bool :=
  c = ' ' || c = '\t' || c = '\n' || c = '\r' || c = '\x0b' || c = '\x0c'

/-- JavaScript `\w`, i.e. `[A-Za-z0-9_]`. -/
def isWordChar (c : Char) : Bool :=
  c.isAlpha || c.isDigit || c = '_'

/-- `String.prototype.trim` on the character list. -/
def trimL (cs : List Char) : List Char :=
  ((cs.dropWhile isJsWs).reverse.dropWhile isJsWs).reverse

/-- JS `s.trim()`. -/
def jsTrim (s : String) : String := ⟨trimL s.data⟩

/-- Substring occurrence test: JS `s.includes(pat)`. -/
def containsSub (pat : List Char) : List Char → Bool
  | [] => pat.isPrefixOf ([] : List Char)
  | c :: t => pat.isPrefixOf (c :: t) || containsSub pat t

/-- JS `s.includes(pat)` on `String`s. -/
def jsIncludes (s pat : String) : Bool := containsSub pat.data s.data

/-- JS `s.startsWith(pat)`. -/
def startsW (pat cs : List Char) : Bool := pat.isPrefixOf cs

/-- JS `s.endsWith('}')` (single-character suffix test). -/
def endsWithChar (c : Char) (cs : List Char) : Bool :=
  match cs.getLast? with
  | some d => d = c
  | none => false

/-- JS `s.split(sep)` for a single-character separator, keeping empty
fields, e.g. `"a,,b" → ["a","","b"]`. -/
def splitCharAux (sep : Char) : List Char → List Char → List (List Char)
  | [], acc => [acc.reverse]
  | c :: t, acc =>
    if c = sep then acc.reverse :: splitCharAux sep t []
    else splitCharAux sep t (c :: acc)

def splitChar (sep : Char) (cs : List Char) : List (List Char) :=
  splitCharAux sep cs []

/-- JS `s.split(/\s+/).filter(p => p)`: the maximal non-whitespace runs. -/
def fieldsAux : List Char → List Char → List (List Char)
  | [], acc => if acc = [] then [] else [acc.reverse]
  | c :: t, acc =>
    if isJsWs c then
      if acc = [] then fieldsAux t [] else acc.reverse :: fieldsAux t []
    else fieldsAux t (c :: acc)

def fieldsWs (cs : List Char) : List (List Char) := fieldsAux cs []

/-- JS `s.replace(/PAT.*$/, '')` where `PAT` is a literal: cut everything
from the first occurrence of `pat` (used for `//` comment stripping). -/
def cutFromSub (pat : List Char) : List Char → List Char
  | [] => []
  | c :: t => if pat.isPrefixOf (c :: t) then [] else c :: cutFromSub pat t

/-- JS `s.replace(/[;,\/\/].*$/, '')`: cut from the first character that
belongs to the class `{';', ',', '/'}` (the doubled `\/\/` in the source
collapses to a single `/` inside a character class). -/
def cutFromCharSet (set : List Char) : List Char → List Char
  | [] => []
  | c :: t => if set.contains c then [] else c :: cutFromCharSet set t

/-- JS `s.replace(/[;,]/, '')` (non-global): delete only the first
character drawn from the class. -/
def removeFirstOfSet (set : List Char) : List Char → List Char
  | [] => []
  | c :: t => if set.contains c then t else c :: removeFirstOfSet set t

/-- Remove the first occurrence of the literal `pat`
(JS `s.replace(new RegExp(litPat), '')` for a metacharacter-free pattern). -/
def removeFirstSub (pat : List Char) : List Char → List Char
  | [] => []
  | c :: t =>
    if pat.isPrefixOf (c :: t) then (c :: t).drop pat.length
    else c :: removeFirstSub pat t

/-- ASCII upper-casing of a whole string: JS `s.toUpperCase()` (the sources
only upper-case strings already restricted to `[A-Za-z0-9_]`). -/
def jsToUpper (s : String) : String := ⟨s.data.map Char.toUpper⟩

/-- ASCII lower-casing: JS `s.toLowerCase()` on the ASCII type names the
generator compares against. -/
def jsToLower (s : String) : String := ⟨s.data.map Char.toLower⟩

/-! Keyword-name extraction.  The parser uses
`line.match(/Keyword\s+(\w+)/)?.[1] || ''`: scan left to right for the
first position where the literal keyword is followed by at least one
whitespace character and at least one word character, and return that
maximal word. -/

/-- Try the regex `kw\s+(\w+)` anchored at the head of `cs`. -/
def matchKwAt (kw cs : List Char) : Option (List Char) :=
  if kw.isPrefixOf cs then
    let rest := cs.drop kw.length
    let ws := rest.takeWhile isJsWs
    if ws = [] then none
    else
      let w := (rest.dropWhile isJsWs).takeWhile isWordChar
      if w = [] then none else some w
  else none

/-- Scan for the first match of `kw\s+(\w+)` (JS `match` semantics). -/
def findKwName (kw : List Char) : List Char → Option (List Char)
  | [] => matchKwAt kw []
  | c :: t =>
    match matchKwAt kw (c :: t) with
    | some w => some w
    | none => findKwName kw t

/-! `Set<T>` / `List<T>` handling for `parseProperty`. -/

/-- Try `(?:Set|List)<(\w+)>` anchored at the head: returns the captured
element type and the total matched length. -/
def matchCollAt (cs : List Char) : Option (List Char × Nat) :=
  let tryTag (tag : List Char) : Option (List Char × Nat) :=
    if tag.isPrefixOf cs then
      let rest := cs.drop tag.length
      let w := rest.takeWhile isWordChar
      if w = [] then none
      else if (rest.drop w.length).head? = some '>' then
        some (w, tag.length + w.length + 1)
      else none
    else none
  match tryTag "Set<".data with
  | some r => some r
  | none => tryTag "List<".data

/-- First match of `/(?:Set|List)<(\w+)>/` anywhere in the line
(JS `line.match(...)` scan). -/
def findCollType : List Char → Option (List Char)
  | [] => none
  | c :: t =>
    match matchCollAt (c :: t) with
    | some (w, _) => some w
    | none => findCollType t

/-- One global-replace pass for `/Set<\w+>/g` or `/List<\w+>/g` with a
fixed replacement (fuel = input length; each match consumes ≥ 1 char). -/
def replCollAux (tag repl : List Char) : Nat → List Char → List Char
  | 0, cs => cs
  | _ + 1, [] => []
  | fuel + 1, c :: t =>
    let here : Option (List Char × Nat) :=
      if tag.isPrefixOf (c :: t) then
        let rest := (c :: t).drop tag.length
        let w := rest.takeWhile isWordChar
        if w = [] then none
        else if (rest.drop w.length).head? = some '>' then
          some (w, tag.length + w.length + 1)
        else none
      else none
    match here with
    | some (_, len) => repl ++ replCollAux tag repl fuel ((c :: t).drop len)
    | none => c :: replCollAux tag repl fuel t

def replaceColl (tag repl cs : List Char) : List Char :=
  replCollAux tag repl cs.length cs

/-- Match of `/\s*nullable\s*/` anchored at the head (greedy `\s*` is
exact here because `nullable` starts with a non-whitespace character):
returns the total matched length. -/
def nullMatchLen (cs : List Char) : Option Nat :=
  let ws1 := cs.takeWhile isJsWs
  let r1 := cs.dropWhile isJsWs
  if ("nullable".data).isPrefixOf r1 then
    let r2 := r1.drop 8
    some (ws1.length + 8 + (r2.takeWhile isJsWs).length)
  else none

/-- JS `line.replace(/\s*nullable\s*/g, '')` (fuel = input length; every
match has length ≥ 8). -/
def removeNullableAux : Nat → List Char → List Char
  | 0, cs => cs
  | _ + 1, [] => []
  | fuel + 1, c :: t =>
    match nullMatchLen (c :: t) with
    | some len => removeNullableAux fuel ((c :: t).drop len)
    | none => c :: removeNullableAux fuel t

def removeNullable (cs : List Char) : List Char :=
  removeNullableAux cs.length cs

/-- JS replace of the anchored regex "leading dash" by the empty string. -/
def dropLeadingDash : List Char → List Char
  | '-' :: t => t
  | cs => cs

/-! ## CML data model (cml-parser interfaces) -/

structure CMLProperty where
  name : String
  type : String
  nullable : Bool
  isRelation : Bool
  isCollection : Bool
  /-- optional `isEnum?` flag; the parser always supplies it. -/
  isEnum : Bool
deriving DecidableEq, Repr

structure CMLEnum where
  name : String
  values : List String
deriving DecidableEq, Repr

structure CMLValueObject where
  name : String
  properties : List CMLProperty
deriving DecidableEq, Repr

structure CMLEntity where
  name : String
  isAggregateRoot : Bool
  properties : List CMLProperty
deriving DecidableEq, Repr

structure CMLAggregate where
  name : String
  entities : List CMLEntity
  valueObjects : List CMLValueObject
  enums : List CMLEnum
deriving DecidableEq, Repr

structure CMLBoundedContext where
  name : String
  aggregates : List CMLAggregate
deriving DecidableEq, Repr

structure CMLModel where
  boundedContexts : List CMLBoundedContext
deriving DecidableEq, Repr

/-! ## `parseProperty` (cml-parser) -/

/-- `parseProperty(line)`, translated line by line from the source. -/
def parseProperty (line0 : String) : Option CMLProperty :=
  -- line = line.replace(/\/\/.*$/, '').trim();
  let cs := trimL (cutFromSub "//".data line0.data)
  -- if (!line || line === '{' || line === '}' || line === 'aggregateRoot') return null;
  if cs = [] ∨ cs = ['\x7b'] ∨ cs = ['\x7d'] ∨ cs = "aggregateRoot".data then none
  else
    let nullable := containsSub "nullable".data cs
    let isRelation := startsW ['-'] cs
    let isCollection := containsSub "Set<".data cs || containsSub "List<".data cs
    let hasEnumMarker := cs.contains '^'
    -- let collectionType = ''; if (isCollection) { ... match ... }
    let collectionType := if isCollection then (findCollType cs).getD [] else []
    -- .replace(/\s*nullable\s*/g, '').replace(/Set<\w+>/g, collectionType || '')
    -- .replace(/List<\w+>/g, collectionType || '').replace(/^-/, '').trim()
    let c1 := removeNullable cs
    let c2 := replaceColl "Set<".data collectionType c1
    let c3 := replaceColl "List<".data collectionType c2
    let c4 := trimL (dropLeadingDash c3)
    -- cleanLine = cleanLine.replace(/\^/g, '');
    let c5 := c4.filter (fun c => c ≠ '^')
    -- const parts = cleanLine.split(/\s+/).filter(p => p);
    match fieldsWs c5 with
    | t :: n :: _ =>
      let type : List Char := t
      -- parts[1].replace(/[;,]/, '')
      let name : List Char := removeFirstOfSet [';', ','] n
      let finalType := if isCollection && collectionType ≠ [] then collectionType else type
      some { name := ⟨name⟩, type := ⟨finalType⟩, nullable := nullable,
             isRelation := isRelation, isCollection := isCollection,
             isEnum := hasEnumMarker }
    | _ => none

/-! ## `parseCML` (cml-parser)

The JavaScript parser builds the model by mutating objects reachable both
from the result array and from five "current" cursor variables.  The
embedding keeps one pool ("arena") per object kind; each pooled object
carries the parent it was attached to when created (`none` when the
corresponding `if (currentX)` guard failed, in which case the object is
reachable only through the cursor and never appears in the result). -/

structure PAgg where
  name : String
  /-- index of the bounded context this aggregate was pushed into, if any -/
  parent : Option Nat
deriving DecidableEq, Repr

structure PEntity where
  name : String
  isAggregateRoot : Bool
  properties : List CMLProperty
  /-- index of the aggregate this entity was pushed into, if any -/
  parent : Option Nat
deriving DecidableEq, Repr

structure PVO where
  name : String
  properties : List CMLProperty
  parent : Option Nat
deriving DecidableEq, Repr

structure PEnum where
  name : String
  values : List String
  parent : Option Nat
deriving DecidableEq, Repr

structure PState where
  bcNames : List String
  aggs : List PAgg
  ents : List PEntity
  vos : List PVO
  enums : List PEnum
  curBC : Option Nat
  curAgg : Option Nat
  curEnt : Option Nat
  curVO : Option Nat
  curEnum : Option Nat
deriving DecidableEq, Repr

def initState : PState :=
  { bcNames := [], aggs := [], ents := [], vos := [], enums := [],
    curBC := none, curAgg := none, curEnt := none, curVO := none, curEnum := none }

/-- In-place update of the `i`-th pooled object (JS mutation through an
object reference). -/
def modifyIdx (l : List α) (i : Nat) (f : α → α) : List α :=
  match l, i with
  | [], _ => []
  | a :: t, 0 => f a :: t
  | a :: t, n + 1 => a :: modifyIdx t n f

/-- Values appended by one enum-value line (the `if (line && currentEnum)`
block): empty when every guard fails, i.e. nothing is pushed. -/
def enumLineValues (cs : List Char) : List String :=
  -- const cleanLine = line.replace(/\/\/.*$/, '').trim();
  let cleanLine := trimL (cutFromSub "//".data cs)
  if cleanLine ≠ [] ∧ cleanLine ≠ ['\x7d'] ∧ ¬ startsW "enum ".data cleanLine then
    if cleanLine.contains ',' then
      -- cleanLine.split(',').map(v => v.trim().replace(/[;,\/\/].*$/, '').trim())
      --   .filter(v => v && v !== '}')
      (((splitChar ',' cleanLine).map
          (fun v => trimL (cutFromCharSet [';', ',', '/'] (trimL v)))).filter
          (fun v => v ≠ [] ∧ v ≠ ['\x7d'])).map (fun v => (⟨v⟩ : String))
    else
      -- const value = cleanLine.replace(/[;,\/\/].*$/, '').trim();
      let value := trimL (cutFromCharSet [';', ',', '/'] cleanLine)
      if value ≠ [] ∧ value ≠ ['\x7d'] ∧ ¬ containsSub "enum".data value then
        [(⟨value⟩ : String)]
      else []
  else []

/-- Enum-value line handling: push the line's values (possibly none) onto
the current enumeration. -/
def handleEnumLine (s : PState) (k : Nat) (cs : List Char) : PState :=
  let f := fun (e : PEnum) => { e with values := e.values ++ enumLineValues cs }
  { s with enums := modifyIdx s.enums k f }

/-- The `if (line && currentEntity)` property push. -/
def pushEntProp (s : PState) (line : String) : PState :=
  match s.curEnt, parseProperty line with
  | some k, some p =>
    let f := fun (e : PEntity) => { e with properties := e.properties ++ [p] }
    { s with ents := modifyIdx s.ents k f }
  | _, _ => s

/-- The `if (line && currentValueObject)` property push. -/
def pushVOProp (s : PState) (line : String) : PState :=
  match s.curVO, parseProperty line with
  | some k, some p =>
    let f := fun (v : PVO) => { v with properties := v.properties ++ [p] }
    { s with vos := modifyIdx s.vos k f }
  | _, _ => s

/-- Property lines: pushed into the current entity and, independently,
into the current value object (the source has two consecutive `if`s). -/
def handlePropLine (s : PState) (line : String) : PState :=
  pushVOProp (pushEntProp s line) line

/-- One iteration of the parser's line loop. -/
def processLine (s : PState) (line : String) : PState :=
  let cs := line.data
  if startsW "BoundedContext ".data cs then
    -- line.match(/BoundedContext\s+(\w+)/)?.[1] || ''
    let name : List Char := (findKwName "BoundedContext".data cs).getD []
    { s with bcNames := s.bcNames ++ [(⟨name⟩ : String)],
             curBC := some s.bcNames.length }
  else if startsW "Aggregate ".data cs then
    let name : List Char := (findKwName "Aggregate".data cs).getD []
    { s with aggs := s.aggs ++ [{ name := ⟨name⟩, parent := s.curBC }],
             curAgg := some s.aggs.length }
  else if startsW "Entity ".data cs then
    let name : List Char := (findKwName "Entity".data cs).getD []
    let e : PEntity :=
      { name := ⟨name⟩, isAggregateRoot := false, properties := [], parent := s.curAgg }
    { s with ents := s.ents ++ [e], curEnt := some s.ents.length }
  else if startsW "ValueObject ".data cs then
    let name : List Char := (findKwName "ValueObject".data cs).getD []
    { s with vos := s.vos ++ [{ name := ⟨name⟩, properties := [], parent := s.curAgg }],
             curVO := some s.vos.length }
  else if startsW "enum ".data cs then
    let name : List Char := (findKwName "enum".data cs).getD []
    { s with enums := s.enums ++ [{ name := ⟨name⟩, values := [], parent := s.curAgg }],
             curEnum := some s.enums.length }
  else if line = "\x7d" ∨ endsWithChar '\x7d' cs then
    -- if (currentEnum) currentEnum = null; if (currentValueObject) ...;
    -- if (currentEntity) ...;  (the look-ahead block that follows has no
    -- effect on the state and is omitted)
    { s with curEnum := none, curVO := none, curEnt := none }
  else if line ≠ "" ∧ s.curEnum.isSome then
    match s.curEnum with
    | some k => handleEnumLine s k cs
    | none => s
  else if line = "aggregateRoot" ∧ s.curEnt.isSome then
    match s.curEnt with
    | some k =>
      let f := fun (e : PEntity) => { e with isAggregateRoot := true }
      { s with ents := modifyIdx s.ents k f }
    | none => s
  else if line ≠ "" then handlePropLine s line
  else s

def runParser (s : PState) (ls : List String) : PState :=
  List.foldl processLine s ls

/-- The line pre-processing:
`content.split('\n').map(l => l.trim()).filter(l => l && !l.startsWith('//'))`. -/
def cmlLines (content : String) : List String :=
  (((splitChar '\n' content.data).map trimL).filter
      (fun l => l ≠ [] ∧ ¬ startsW "//".data l)).map (fun l => (⟨l⟩ : String))

/-- Read the finished object graph back off the arenas: a bounded context
owns the aggregates pushed into it, an aggregate owns the entities /
value objects / enumerations pushed into it, all in creation order. -/
def assembleAgg (s : PState) (ai : Nat) (a : PAgg) : CMLAggregate :=
  { name := a.name
    entities := s.ents.filterMap (fun e =>
      if e.parent = some ai then
        some { name := e.name, isAggregateRoot := e.isAggregateRoot,
               properties := e.properties }
      else none)
    valueObjects := s.vos.filterMap (fun v =>
      if v.parent = some ai then some { name := v.name, properties := v.properties }
      else none)
    enums := s.enums.filterMap (fun e =>
      if e.parent = some ai then some { name := e.name, values := e.values }
      else none) }

def assemble (s : PState) : CMLModel :=
  { boundedContexts := s.bcNames.enum.map (fun bi =>
      { name := bi.2
        aggregates := s.aggs.enum.filterMap (fun ai =>
          if ai.2.parent = some bi.1 then some (assembleAgg s ai.1 ai.2) else none) }) }

/-- `parseCML(content)`. -/
def parseCML (content : String) : CMLModel :=
  assemble (runParser initState (cmlLines content))

/-- Total number of aggregates reachable in a model. -/
def modelAggCount (m : CMLModel) : Nat :=
  (m.boundedContexts.map (fun bc => bc.aggregates.length)).sum

/-- Well-formedness of a parser state: the bounded-context cursor and
every aggregate parent pointer index an existing bounded context.  Holds
for `initState` and is preserved by every line (proved below), so every
reachable state satisfies it. -/
def StateOK (s : PState) : Prop :=
  (∀ i, s.curBC = some i → i < s.bcNames.length) ∧
  ∀ a ∈ s.aggs, ∀ i, a.parent = some i → i < s.bcNames.length

/-! ## Generator configuration (php-generator) -/

inductive Framework
  | laravel
  | doctrine
  | plain
deriving DecidableEq, Repr

/-- `'enum' | 'valueobject' | 'entity'` for `GeneratedFile.type`, and
`'Enum' | 'ValueObject' | 'Entity'` for mapping-rule kind filters. -/
inductive UnitKind
  | enum
  | valueobject
  | entity
deriving DecidableEq, Repr

inductive CtorType
  | none
  | required
  | all
deriving DecidableEq, Repr

inductive DirStructure
  | flat
  | boundedContext
  | aggregate
  | psr4
deriving DecidableEq, Repr

inductive PhpVersion
  | php81
  | php82
  | php83
  | php84
deriving DecidableEq, Repr

/-- `parseFloat(config.phpVersion)` in tenths, so `8.1 ↦ 81` etc. -/
def phpFloatTenths : PhpVersion → Nat
  | .php81 => 81
  | .php82 => 82
  | .php83 => 83
  | .php84 => 84

structure RegexPatternMapping where
  pattern : String
  typeFolder : Option UnitKind
  subfolder : String
  nameReplace : Option String
deriving DecidableEq, Repr

/-- `GeneratorConfig` of the current generator.  The source field
`namespace` is a Lean keyword and is embedded as `nameSpace`. -/
structure GeneratorConfig where
  framework : Framework
  publicProperties : Bool
  addGetters : Bool
  addSetters : Bool
  nameSpace : Option String
  constructorType : CtorType
  constructorPropertyPromotion : Bool
  doctrineCollectionDocstrings : Option Bool
  doctrineAttributes : Option Bool
  arrayDocstrings : Option Bool
  directoryStructure : Option DirStructure
  groupByType : Option Bool
  phpVersion : Option PhpVersion
  readonlyValueObjects : Option Bool
  regexPatternMappings : Option (List RegexPatternMapping)
deriving DecidableEq, Repr

/-- JS truthiness of an optional boolean field. -/
def optTrue (o : Option Bool) : Bool := o.getD false

/-- JS `x !== false` on an optional boolean field. -/
def neqFalse (o : Option Bool) : Bool :=
  match o with
  | some false => false
  | _ => true

/-- JS `o || d` for optional strings (the empty string is falsy). -/
def jsStrOr (o : Option String) (d : String) : String :=
  match o with
  | some s => if s = "" then d else s
  | none => d

/-- JS truthiness of an optional string argument. -/
def strTruthy (o : Option String) : Bool :=
  match o with
  | some s => s ≠ ""
  | none => false

/-! ## Structured PHP output

The source assembles declarations with the external `js-php-generator`
library and prints them; content is embedded as the assembled structure. -/

structure PhpAttrUse where
  name : String
  args : List String
deriving DecidableEq, Repr

structure PhpProp where
  name : String
  isPublic : Bool
  type : String
  nullable : Bool
  readonlyProp : Bool
  comments : List String
  attrs : List PhpAttrUse
deriving DecidableEq, Repr

structure PhpParam where
  name : String
  type : String
  nullable : Bool
  /-- `addPromotedParameter` vs `addParameter` -/
  promoted : Bool
  /-- visibility, set on promoted parameters only -/
  isPublic : Option Bool
  readonlyProp : Bool
  comments : List String
deriving DecidableEq, Repr

structure PhpMethod where
  name : String
  params : List PhpParam
  returnType : Option String
  returnNullable : Bool
  body : Option String
  comments : List String
deriving DecidableEq, Repr

structure PhpClass where
  name : String
  isFinal : Bool
  readonlyClass : Bool
  extendsName : Option String
  comments : List String
  attrs : List PhpAttrUse
  props : List PhpProp
  methods : List PhpMethod
deriving DecidableEq, Repr

structure PhpEnumCase where
  name : String
  value : String
deriving DecidableEq, Repr

structure PhpEnumDecl where
  name : String
  backing : String
  cases : List PhpEnumCase
deriving DecidableEq, Repr

inductive PhpSourceFile
  | enumFile (ns : String) (decl : PhpEnumDecl)
  | classFile (ns : String) (cls : PhpClass)
deriving DecidableEq, Repr

/-- Enum cases of a generated file (empty for class files). -/
def PhpSourceFile.enumCases : PhpSourceFile → List PhpEnumCase
  | .enumFile _ d => d.cases
  | .classFile _ _ => []

/-- Methods of a generated file (empty for enum files). -/
def PhpSourceFile.methods : PhpSourceFile → List PhpMethod
  | .enumFile _ _ => []
  | .classFile _ c => c.methods

structure GeneratedFile where
  filename : String
  path : String
  content : PhpSourceFile
  type : UnitKind
deriving DecidableEq, Repr

/-! ## Pure helpers of the generator -/

/-- `capitalize(str)`. -/
def capitalize (s : String) : String :=
  match s.data with
  | [] => ""
  | c :: t => ⟨Char.toUpper c :: t⟩

/-- `toSnakeCase(str)`: underscore before each capital, lower-case all,
drop one leading underscore. -/
def toSnakeCase (s : String) : String :=
  let inserted := s.data.flatMap (fun c => if c.isUpper then ['_', c] else [c])
  let lowered := inserted.map Char.toLower
  ⟨match lowered with
    | '_' :: t => t
    | l => l⟩

/-- `getInversePropertyName(entityName)`. -/
def getInversePropertyName (entityName : String) : String :=
  toSnakeCase entityName

/-- JS template rendering of a boolean. -/
def boolStr (b : Bool) : String := if b then "true" else "false"

/-- `buildNamespace(config, boundedContextName?, aggregateName?)`. -/
def buildNamespace (cfg : GeneratorConfig) (bcName agName : Option String) : String :=
  let ns := jsStrOr cfg.nameSpace "App\\Models"
  let directoryStructure := cfg.directoryStructure.getD .flat
  if (directoryStructure = .psr4 ∨ directoryStructure = .aggregate) ∧
      strTruthy bcName ∧ strTruthy agName then
    ns ++ "\\" ++ bcName.getD "" ++ "\\" ++ agName.getD ""
  else if directoryStructure = .boundedContext ∧ strTruthy bcName then
    ns ++ "\\" ++ bcName.getD ""
  else ns

/-- `getDirectoryPath(boundedContextName, aggregateName, structure)`. -/
def getDirectoryPath (bcName agName : String) : DirStructure → String
  | .flat => ""
  | .boundedContext => bcName
  | .aggregate => bcName ++ "/" ++ agName
  | .psr4 => bcName ++ "/" ++ agName

/-- JS `s.replace(/\/+$/, '')` used by `buildFilePath`. -/
def dropTrailingSlashes (s : String) : String :=
  ⟨(s.data.reverse.dropWhile (fun c => c = '/')).reverse⟩

/-- `buildFilePath(basePath, typeFolder, subfolder, filename)`. -/
def buildFilePath (basePath typeFolder subfolder filename : String) : String :=
  let parts := [basePath, dropTrailingSlashes typeFolder,
                dropTrailingSlashes subfolder, filename].filter (fun p => p ≠ "")
  String.intercalate "/" parts

/-- `mapDoctrineType(type)`. -/
def mapDoctrineType (type : String) : String :=
  let lowerType := jsToLower type
  if lowerType = "string" then "string"
  else if lowerType = "int" ∨ lowerType = "integer" then "integer"
  else if lowerType = "bool" ∨ lowerType = "boolean" then "boolean"
  else if lowerType = "float" ∨ lowerType = "double" then "float"
  else if lowerType = "datetime" then "datetime"
  else if lowerType = "date" then "date"
  else if lowerType = "clob" then "text"
  else "string"

/-- `mapTypeToPHP(config, prop)` of the current generator
(src/lib/php-generator.ts, the version that checks collections before
primitive names). -/
def mapTypeToPHP (cfg : GeneratorConfig) (prop : CMLProperty) : String :=
  if prop.type = "" ∨ jsTrim prop.type = "" then "mixed"
  else if prop.isCollection then
    if prop.isRelation then
      match cfg.framework with
      | .doctrine => "Doctrine\\Common\\Collections\\Collection"
      | .laravel => "Illuminate\\Database\\Eloquent\\Collection"
      | .plain => "array"
    else "array"
  else
    let lowerType := jsToLower prop.type
    if lowerType = "string" then "string"
    else if lowerType = "int" ∨ lowerType = "integer" then "int"
    else if lowerType = "bool" ∨ lowerType = "boolean" then "bool"
    else if lowerType = "float" ∨ lowerType = "double" then "float"
    else if lowerType = "datetime" then "\\DateTime"
    else if lowerType = "date" then "\\DateTime"
    else if lowerType = "clob" then "string"
    else prop.type

namespace LegacyGen

/-- `mapTypeToPHP(config, prop)` of the earlier generator revision kept in
the repository (the variant that checks primitive names before the
collection flag). -/
def mapTypeToPHP (cfg : GeneratorConfig) (prop : CMLProperty) : String :=
  if prop.type = "" ∨ jsTrim prop.type = "" then "mixed"
  else
    let lowerType := jsToLower prop.type
    if lowerType = "string" then "string"
    else if lowerType = "int" ∨ lowerType = "integer" then "int"
    else if lowerType = "bool" ∨ lowerType = "boolean" then "bool"
    else if lowerType = "float" ∨ lowerType = "double" then "float"
    else if lowerType = "datetime" then "\\DateTime"
    else if lowerType = "date" then "\\DateTime"
    else if lowerType = "clob" then "string"
    else if prop.isCollection then
      match cfg.framework with
      | .doctrine => "Doctrine\\Common\\Collections\\Collection"
      | .laravel => "Illuminate\\Database\\Eloquent\\Collection"
      | .plain => "array"
    else prop.type

end LegacyGen

/-- `config.phpVersion && parseFloat(config.phpVersion) >= 8.2`. -/
def phpVersionAtLeast82 (cfg : GeneratorConfig) : Bool :=
  match cfg.phpVersion with
  | some v => phpFloatTenths v ≥ 82
  | none => false

/-- `shouldApplyReadonlyProperty(config)`. -/
def shouldApplyReadonlyProperty (cfg : GeneratorConfig) : Bool :=
  cfg.readonlyValueObjects = some true &&
    (match cfg.phpVersion with
     | some v => phpFloatTenths v ≥ 81 && phpFloatTenths v < 82
     | none => false)

inductive DocKind
  | var
  | ret
  | param
deriving DecidableEq, Repr

/-- `addCollectionDocstring(target, prop, docType, config)`: the single
comment it attaches, if any. -/
def addCollectionDocstring (prop : CMLProperty) (docType : DocKind)
    (cfg : GeneratorConfig) : Option String :=
  if ¬ prop.isCollection then none
  else
    let arrayDoc :=
      match docType with
      | .param => "@param array<int, " ++ prop.type ++ "> $" ++ prop.name
      | .ret => "@return array<int, " ++ prop.type ++ ">"
      | .var => "@var array<int, " ++ prop.type ++ ">"
    let collDoc :=
      match docType with
      | .param => "@param \\Doctrine\\Common\\Collections\\Collection<array-key, " ++
          prop.type ++ "> $" ++ prop.name
      | .ret => "@return \\Doctrine\\Common\\Collections\\Collection<array-key, " ++
          prop.type ++ ">"
      | .var => "@var \\Doctrine\\Common\\Collections\\Collection<array-key, " ++
          prop.type ++ ">"
    if cfg.framework = .doctrine then
      if prop.isRelation && optTrue cfg.doctrineCollectionDocstrings then some collDoc
      else if !prop.isRelation && optTrue cfg.arrayDocstrings then some arrayDoc
      else none
    else if optTrue cfg.arrayDocstrings && cfg.framework = .plain then some arrayDoc
    else none

/-! ## Emitters -/

/-- Normalisation of one enumeration value label in `generateEnum`:
`value.replace(/[^a-zA-Z0-9_]/g, '_').toUpperCase()`. -/
def cleanEnumValue (v : String) : String :=
  jsToUpper ⟨v.data.map (fun c => if isWordChar c then c else '_')⟩

/-- `generateEnum(enumDef, config, boundedContextName?, aggregateName?,
nameOverride?)`.  The source inlines namespace logic identical to
`buildNamespace`. -/
def generateEnum (enumDef : CMLEnum) (cfg : GeneratorConfig)
    (bcName agName nameOverride : Option String) : PhpSourceFile :=
  let ns := buildNamespace cfg bcName agName
  -- const enumName = nameOverride || enumDef.name;
  let enumName := jsStrOr nameOverride enumDef.name
  .enumFile ns
    { name := enumName, backing := "string"
      cases := enumDef.values.map (fun v =>
        { name := cleanEnumValue v, value := cleanEnumValue v }) }

/-- `generateValueObject(valueObject, config, boundedContextName?,
aggregateName?, nameOverride?)`. -/
def generateValueObject (vo : CMLValueObject) (cfg : GeneratorConfig)
    (bcName agName nameOverride : Option String) : PhpSourceFile :=
  let ns := buildNamespace cfg bcName agName
  let className := jsStrOr nameOverride vo.name
  -- readonly class for PHP 8.2+ if enabled
  let readonlyCls := optTrue cfg.readonlyValueObjects && phpVersionAtLeast82 cfg
  -- const effectiveConstructorType = config.readonlyValueObjects ? 'all' : ...
  let effectiveConstructorType :=
    if optTrue cfg.readonlyValueObjects then CtorType.all else cfg.constructorType
  let propertiesForConstructor :=
    if effectiveConstructorType ≠ CtorType.none then
      if effectiveConstructorType = CtorType.required then
        vo.properties.filter (fun p => !p.nullable)
      else vo.properties
    else []
  let promotedProperties :=
    if cfg.constructorPropertyPromotion && effectiveConstructorType ≠ CtorType.none then
      propertiesForConstructor.map (fun p => p.name)
    else []
  let props := vo.properties.filterMap (fun p =>
    if promotedProperties.contains p.name then none
    else
      some { name := p.name, isPublic := cfg.publicProperties,
             type := mapTypeToPHP cfg p, nullable := p.nullable,
             readonlyProp := shouldApplyReadonlyProperty cfg,
             comments := (addCollectionDocstring p .var cfg).toList,
             attrs := ([] : List PhpAttrUse) })
  let ctorMethods :=
    if effectiveConstructorType ≠ CtorType.none ∧ vo.properties.length > 0 then
      let params := propertiesForConstructor.map (fun p =>
        { name := p.name, type := mapTypeToPHP cfg p, nullable := p.nullable,
          promoted := cfg.constructorPropertyPromotion,
          isPublic := if cfg.constructorPropertyPromotion
                      then some cfg.publicProperties else none,
          readonlyProp := cfg.constructorPropertyPromotion &&
            shouldApplyReadonlyProperty cfg,
          comments := (addCollectionDocstring p .var cfg).toList })
      let constructorBody :=
        if cfg.constructorPropertyPromotion then ""
        else String.join (propertiesForConstructor.map (fun p =>
          "$this->" ++ p.name ++ " = $" ++ p.name ++ ";\n"))
      [{ name := "__construct", params := params, returnType := none,
         returnNullable := false,
         body := if constructorBody ≠ "" then some constructorBody else none,
         comments := ([] : List String) }]
    else []
  let accessors := (vo.properties.map (fun p =>
    (if cfg.addGetters then
      [{ name := "get" ++ capitalize p.name, params := ([] : List PhpParam),
         returnType := some (mapTypeToPHP cfg p), returnNullable := p.nullable,
         body := some ("return $this->" ++ p.name ++ ";"),
         comments := (addCollectionDocstring p .ret cfg).toList }]
     else []) ++
    -- if (config.addSetters && !config.readonlyValueObjects)
    (if cfg.addSetters && !optTrue cfg.readonlyValueObjects then
      [{ name := "set" ++ capitalize p.name,
         params := [{ name := p.name, type := mapTypeToPHP cfg p,
                      nullable := p.nullable, promoted := false, isPublic := none,
                      readonlyProp := false, comments := ([] : List String) }],
         returnType := some "self", returnNullable := false,
         body := some ("$this->" ++ p.name ++ " = $" ++ p.name ++ ";\n\nreturn $this;"),
         comments := (addCollectionDocstring p .param cfg).toList }]
     else []))).flatten
  .classFile ns
    { name := className, isFinal := true, readonlyClass := readonlyCls,
      extendsName := none, comments := [], attrs := [], props := props,
      methods := ctorMethods ++ accessors }

/-- One pass of the entity property loop of `generateEntity`: `none` when
the source `continue`s before `addProperty`. -/
def entityProp (entityName : String) (cfg : GeneratorConfig)
    (promotedProperties : List String) (p : CMLProperty) : Option PhpProp :=
  if p.isRelation && cfg.framework = Framework.laravel then none
  else if promotedProperties.contains p.name then none
  else
    let base : PhpProp :=
      { name := p.name, isPublic := cfg.publicProperties,
        type := mapTypeToPHP cfg p, nullable := p.nullable, readonlyProp := false,
        comments := (addCollectionDocstring p .var cfg).toList, attrs := [] }
    if cfg.framework = Framework.laravel then
      if p.name = "id" then
        some { base with attrs :=
          [{ name := "Illuminate\\Database\\Eloquent\\Casts\\Attribute", args := [] }] }
      else some base
    else if cfg.framework = Framework.doctrine then
      if neqFalse cfg.doctrineAttributes then
        if p.isRelation then
          if p.isCollection then
            -- OneToMany + overwrite the type + a second docstring call
            some { base with
              attrs := [{ name := "Doctrine\\ORM\\Mapping\\OneToMany",
                          args := ["targetEntity: " ++ p.type ++ "::class",
                                   "mappedBy: '" ++ getInversePropertyName entityName ++ "'"] }],
              type := "Doctrine\\Common\\Collections\\Collection",
              comments := base.comments ++ (addCollectionDocstring p .var cfg).toList }
          else
            some { base with
              attrs := [{ name := "Doctrine\\ORM\\Mapping\\ManyToOne",
                          args := ["targetEntity: " ++ p.type ++ "::class"] }] }
        else if p.isCollection then
          -- primitive collection stored as JSON
          some { base with
            attrs := [{ name := "Doctrine\\ORM\\Mapping\\Column",
                        args := ["type: 'json'", "nullable: " ++ boolStr p.nullable] }] }
        else
          some { base with
            attrs := [{ name := "Doctrine\\ORM\\Mapping\\Column",
                        args := ["type: '" ++ mapDoctrineType p.type ++ "'",
                                 "nullable: " ++ boolStr p.nullable] }] }
      else
        -- attributes disabled: relation collections still use Collection
        if p.isCollection && p.isRelation then
          some { base with
            type := "Doctrine\\Common\\Collections\\Collection",
            comments := base.comments ++ (addCollectionDocstring p .var cfg).toList }
        else some base
    else some base

/-- `generateEntity(entity, config, boundedContextName?, aggregateName?,
nameOverride?)`. -/
def generateEntity (entity : CMLEntity) (cfg : GeneratorConfig)
    (bcName agName nameOverride : Option String) : PhpSourceFile :=
  let ns := buildNamespace cfg bcName agName
  let className := jsStrOr nameOverride entity.name
  let clsComments :=
    if cfg.framework = Framework.laravel then ["@property-read int $id"] else []
  let extendsName :=
    if cfg.framework = Framework.laravel then
      some "Illuminate\\Database\\Eloquent\\Model"
    else none
  let clsAttrs : List PhpAttrUse :=
    if cfg.framework = Framework.doctrine && neqFalse cfg.doctrineAttributes then
      [{ name := "Doctrine\\ORM\\Mapping\\Entity", args := [] },
       { name := "Doctrine\\ORM\\Mapping\\Table",
         args := ["name: '" ++ toSnakeCase entity.name ++ "'"] }]
    else []
  let propertiesForConstructor :=
    if cfg.constructorType ≠ CtorType.none then
      entity.properties.filter (fun p =>
        !(p.isRelation && cfg.framework = Framework.laravel))
    else []
  let propertiesToInclude :=
    if cfg.constructorType = CtorType.required then
      propertiesForConstructor.filter (fun p => !p.nullable)
    else propertiesForConstructor
  let promotedProperties :=
    if cfg.constructorPropertyPromotion && cfg.constructorType ≠ CtorType.none then
      propertiesToInclude.map (fun p => p.name)
    else []
  let props := entity.properties.filterMap (entityProp entity.name cfg promotedProperties)
  let arrayCollLine := fun (n : String) =>
    "$this->" ++ n ++ " = new \\Doctrine\\Common\\Collections\\ArrayCollection();\n"
  let ctorMethods :=
    if cfg.constructorType ≠ CtorType.none then
      let includedNames := propertiesToInclude.map (fun p => p.name)
      -- Doctrine collection initialization (relation collections only;
      -- primitive collections not already constructor parameters get [])
      let initLines :=
        if cfg.framework = Framework.doctrine then
          String.join (entity.properties.filterMap (fun p =>
            if p.isCollection && p.isRelation then some (arrayCollLine p.name)
            else if p.isCollection && !p.isRelation && !includedNames.contains p.name then
              some ("$this->" ++ p.name ++ " = [];\n")
            else none))
        else ""
      let params := propertiesToInclude.map (fun p =>
        { name := p.name, type := mapTypeToPHP cfg p, nullable := p.nullable,
          promoted := cfg.constructorPropertyPromotion,
          isPublic := if cfg.constructorPropertyPromotion
                      then some cfg.publicProperties else none,
          readonlyProp := false,
          comments := (addCollectionDocstring p .var cfg).toList })
      let assigns :=
        if cfg.constructorPropertyPromotion then ""
        else String.join (propertiesToInclude.map (fun p =>
          "$this->" ++ p.name ++ " = $" ++ p.name ++ ";\n"))
      let bodyStr := initLines ++ assigns
      [{ name := "__construct", params := params, returnType := none,
         returnNullable := false,
         body := if bodyStr ≠ "" then some bodyStr else none,
         comments := ([] : List String) }]
    else if cfg.framework = Framework.doctrine &&
        entity.properties.any (fun p => p.isCollection) then
      -- even with no constructor, Doctrine needs collection initialization
      [{ name := "__construct", params := ([] : List PhpParam), returnType := none,
         returnNullable := false,
         body := some (String.join (entity.properties.filterMap (fun p =>
           if p.isCollection && p.isRelation then some (arrayCollLine p.name)
           else if p.isCollection && !p.isRelation then
             some ("$this->" ++ p.name ++ " = [];\n")
           else none))),
         comments := ([] : List String) }]
    else []
  let accessors := (entity.properties.map (fun p =>
    if p.isRelation && cfg.framework = Framework.laravel then []
    else
      (if cfg.addGetters then
        [{ name := "get" ++ capitalize p.name, params := ([] : List PhpParam),
           returnType := some (mapTypeToPHP cfg p), returnNullable := p.nullable,
           body := some ("return $this->" ++ p.name ++ ";"),
           comments := (addCollectionDocstring p .ret cfg).toList }]
       else []) ++
      (if cfg.addSetters then
        [{ name := "set" ++ capitalize p.name,
           params := [{ name := p.name, type := mapTypeToPHP cfg p,
                        nullable := p.nullable, promoted := false, isPublic := none,
                        readonlyProp := false, comments := ([] : List String) }],
           returnType := some "self", returnNullable := false,
           body := some ("$this->" ++ p.name ++ " = $" ++ p.name ++ ";\n\nreturn $this;"),
           comments := (addCollectionDocstring p .param cfg).toList }]
       else []))).flatten
  let relationMethods :=
    if cfg.framework = Framework.laravel then
      entity.properties.filterMap (fun p =>
        if p.isRelation then
          some (if p.isCollection then
            { name := p.name, params := ([] : List PhpParam),
              returnType := some "Illuminate\\Database\\Eloquent\\Relations\\HasMany",
              returnNullable := false,
              body := some ("return $this->hasMany(" ++ p.type ++ "::class);"),
              comments := ([] : List String) }
          else
            { name := p.name, params := ([] : List PhpParam),
              returnType := some "Illuminate\\Database\\Eloquent\\Relations\\BelongsTo",
              returnNullable := false,
              body := some ("return $this->belongsTo(" ++ p.type ++ "::class);"),
              comments := ([] : List String) })
        else none)
    else []
  .classFile ns
    { name := className, isFinal := false, readonlyClass := false,
      extendsName := extendsName, comments := clsComments, attrs := clsAttrs,
      props := props, methods := ctorMethods ++ accessors ++ relationMethods }

/-! ## Path mapping rules and the pipeline entry point -/

/-- Abstraction of the platform regular-expression facility used by
`getSubfolderForFile` / `applyNameReplace`: `test pat s` is `none` when
`new RegExp(pat)` throws, otherwise `some (regex.test s)`;
`replaceFirst pat s` is `none` when compilation throws, otherwise
`some (s.replace(regex, ''))` (first match removed). -/
structure RegexEngine where
  test : String → String → Option Bool
  replaceFirst : String → String → Option String

/-- A concrete engine for the metacharacter-free literal patterns used in
the concrete evaluations below: matching is substring containment and
replacement removes the first occurrence — exactly what the platform
engine does on such patterns.  A pattern containing `(` is rejected as
malformed (an unbalanced group makes `new RegExp` throw). -/
def litRegex : RegexEngine :=
  { test := fun p s =>
      if p.data.contains '(' then none else some (containsSub p.data s.data)
    replaceFirst := fun p s =>
      if p.data.contains '(' then none
      else some ⟨removeFirstSub p.data s.data⟩ }

structure SubfolderResult where
  subfolder : String
  nameReplace : Option String
deriving DecidableEq, Repr

/-- `getSubfolderForFile(filename, fileType, mappings)`. -/
def getSubfolderForFile (eng : RegexEngine) (filename : String)
    (fileType : UnitKind) : List RegexPatternMapping → SubfolderResult
  | [] => { subfolder := "", nameReplace := none }
  | m :: rest =>
    -- if (mapping.typeFolder && mapping.typeFolder !== fileType) continue;
    if m.typeFolder.isSome ∧ m.typeFolder ≠ some fileType then
      getSubfolderForFile eng filename fileType rest
    -- if (!mapping.pattern || !mapping.subfolder) continue;
    else if m.pattern = "" ∨ m.subfolder = "" then
      getSubfolderForFile eng filename fileType rest
    else
      match eng.test m.pattern filename with
      | some true => { subfolder := m.subfolder, nameReplace := m.nameReplace }
      | some false => getSubfolderForFile eng filename fileType rest
      -- invalid regex pattern: caught, warned, skipped
      | none => getSubfolderForFile eng filename fileType rest

/-- `applyNameReplace(filename, nameReplace?)`. -/
def applyNameReplace (eng : RegexEngine) (filename : String)
    (nameReplace : Option String) : String :=
  match nameReplace with
  | none => filename
  | some nr =>
    -- if (!nameReplace) return filename;  (empty string is falsy)
    if nr = "" then filename
    else
      match eng.replaceFirst nr filename with
      | some r => r
      -- invalid pattern: caught, warned, original name kept
      | none => filename

/-- The body of the per-aggregate loop of `generatePHP`: enumerations,
then value objects, then entities.  (`directoryStructure` and
`groupByType` are read from the config once per run in the source; they
are pure, so recomputing them here is observationally identical.) -/
def filesForAggregate (eng : RegexEngine) (cfg : GeneratorConfig)
    (bcName : String) (agg : CMLAggregate) : List GeneratedFile :=
  let directoryStructure := cfg.directoryStructure.getD .flat
  let groupByType := cfg.groupByType.getD false
  let directoryPath := getDirectoryPath bcName agg.name directoryStructure
  let mappingFor := fun (originalName : String) (kind : UnitKind) =>
    match cfg.regexPatternMappings with
    | some ms => getSubfolderForFile eng originalName kind ms
    | none => ({ subfolder := "", nameReplace := none } : SubfolderResult)
  (agg.enums.map (fun enumDef =>
    let mres := mappingFor enumDef.name .enum
    let processedName := applyNameReplace eng enumDef.name mres.nameReplace
    let filename := processedName ++ ".php"
    let typeFolder := if groupByType then "Enum/" else ""
    { filename := filename
      path := buildFilePath directoryPath typeFolder mres.subfolder filename
      content := generateEnum enumDef cfg (some bcName) (some agg.name) (some processedName)
      type := UnitKind.enum })) ++
  (agg.valueObjects.map (fun vo =>
    let mres := mappingFor vo.name .valueobject
    let processedName := applyNameReplace eng vo.name mres.nameReplace
    let filename := processedName ++ ".php"
    let typeFolder := if groupByType then "ValueObject/" else ""
    { filename := filename
      path := buildFilePath directoryPath typeFolder mres.subfolder filename
      content := generateValueObject vo cfg (some bcName) (some agg.name) (some processedName)
      type := UnitKind.valueobject })) ++
  (agg.entities.map (fun entity =>
    let mres := mappingFor entity.name .entity
    let processedName := applyNameReplace eng entity.name mres.nameReplace
    let filename := processedName ++ ".php"
    let typeFolder := if groupByType then "Entity/" else ""
    { filename := filename
      path := buildFilePath directoryPath typeFolder mres.subfolder filename
      content := generateEntity entity cfg (some bcName) (some agg.name) (some processedName)
      type := UnitKind.entity }))

/-- `generatePHP(model, config)`: bounded contexts and aggregates walked
in order, files pushed in order. -/
def generatePHP (eng : RegexEngine) (model : CMLModel)
    (cfg : GeneratorConfig) : List GeneratedFile :=
  ((model.boundedContexts.map (fun bc =>
    (bc.aggregates.map (fun agg => filesForAggregate eng cfg bc.name agg)).flatten)).flatten)

/-- Total number of enumerations + value objects + entities in a model
(the spec's count phrasing). -/
def modelUnitCount (m : CMLModel) : Nat :=
  (m.boundedContexts.map (fun bc =>
    (bc.aggregates.map (fun a =>
      a.enums.length + a.valueObjects.length + a.entities.length)).sum)).sum

/-- The spec's description of one enumeration label's normalisation:
"upper-cased with every character outside `[A-Za-z0-9_]` replaced by
`'_'`" (modelled from the spec's words, for comparison against
`cleanEnumValue` from the source). -/
def specNormalizeLabel (v : String) : String :=
  ⟨v.data.map (fun c => if isWordChar c then c.toUpper else '_')⟩

/-- The spec's description of rule selection in `getSubfolderForFile`
("the first rule whose pattern matches the unit's original name and whose
kind filter, if present, matches"), refined by the additional source-side
requirement that both the pattern and the subfolder are nonempty;
modelled as a predicate for `List.find?`. -/
def ruleAccepts (eng : RegexEngine) (filename : String) (fileType : UnitKind)
    (m : RegexPatternMapping) : Bool :=
  (m.typeFolder = none || m.typeFolder = some fileType) &&
  m.pattern ≠ "" && m.subfolder ≠ "" &&
  eng.test m.pattern filename = some true

/-- Rank of a file kind in the per-aggregate emission order. -/
def kindRank : UnitKind → Nat
  | .enum => 0
  | .valueobject => 1
  | .entity => 2

/-! ## Concrete instances used by the theorems below -/

/-- Concrete scenario 1 of the spec. -/
def scenario1Input : String :=
  "BoundedContext Sales \x7b\n  Aggregate Order \x7b\n    Entity Order \x7b\n      aggregateRoot\n      - Set<OrderLine> lines\n    \x7d\n  \x7d\n\x7d"

def scenario1Model : CMLModel :=
  { boundedContexts :=
      [{ name := "Sales"
         aggregates :=
           [{ name := "Order"
              entities :=
                [{ name := "Order", isAggregateRoot := true
                   properties :=
                     [{ name := "lines", type := "OrderLine", nullable := false,
                        isRelation := true, isCollection := true, isEnum := false }] }]
              valueObjects := []
              enums := [] }] }] }

/-- Lines preceding the closing brace in the C2 counterexample: an open
entity with an open enumeration nested inside it. -/
def c2PrefixLines : List String :=
  ["BoundedContext A \x7b", "Aggregate B \x7b", "Entity E \x7b", "enum Color \x7b", "RED"]

/-- Full C2 counterexample input: after the single closing brace a
property line follows, then the remaining closing braces. -/
def c2Input : String :=
  "BoundedContext A \x7b\nAggregate B \x7b\nEntity E \x7b\nenum Color \x7b\nRED\n\x7d\nString name\n\x7d\n\x7d\n\x7d"

/-- Aggregate declared before any bounded context: its entity (with a
parsed property) is attached to the orphaned aggregate and discarded. -/
def c9OrphanAggInput : String :=
  "Aggregate Billing \x7b\nBoundedContext Sales \x7b\nEntity Invoice \x7b\nString number num\n\x7d\n\x7d"

/-- Entity, value object and enumeration declared while no aggregate is
open: all are discarded, the bounded context survives empty. -/
def c9OrphanUnitsInput : String :=
  "BoundedContext S \x7b\nEntity E \x7b\n\x7d\nValueObject V \x7b\n\x7d\nenum X \x7b\nA\n\x7d\n\x7d"

/-- Input with no `BoundedContext` line at all (for the C9 witness). -/
def c9NoContextInput : String :=
  "Aggregate A \x7b\nEntity E \x7b\naggregateRoot\nString a b\n\x7d\n\x7d"

/-- A plain-framework configuration used in concrete generator runs. -/
def cfgPlainDemo : GeneratorConfig :=
  { framework := .plain, publicProperties := false, addGetters := true,
    addSetters := true, nameSpace := none, constructorType := .required,
    constructorPropertyPromotion := false, doctrineCollectionDocstrings := none,
    doctrineAttributes := none, arrayDocstrings := none, directoryStructure := none,
    groupByType := none, phpVersion := some .php83, readonlyValueObjects := some true,
    regexPatternMappings := none }

/-- A collection property with a primitive element type. -/
def propStrColl : CMLProperty :=
  { name := "tags", type := "string", nullable := false, isRelation := false,
    isCollection := true, isEnum := false }

/-- A collection property whose element type is a sibling reference. -/
def propRefColl : CMLProperty :=
  { name := "lines", type := "OrderLine", nullable := false, isRelation := false,
    isCollection := true, isEnum := false }

/-- Value object used by the C6 witness. -/
def voDemo : CMLValueObject :=
  { name := "Money"
    properties :=
      [{ name := "amount", type := "int", nullable := false, isRelation := false,
         isCollection := false, isEnum := false },
       { name := "currency", type := "string", nullable := true, isRelation := false,
         isCollection := false, isEnum := false }] }

/-- C8 counterexample rule list: the first rule's pattern matches but its
subfolder is empty, so the source skips it. -/
def c8Rule1 : RegexPatternMapping :=
  { pattern := "a", typeFolder := none, subfolder := "", nameReplace := some "zz" }

def c8Rule2 : RegexPatternMapping :=
  { pattern := "a", typeFolder := none, subfolder := "Sub", nameReplace := none }

/-- One-bounded-context model used by concrete generator witnesses. -/
def c8DemoModel : CMLModel :=
  { boundedContexts :=
      [{ name := "Sales"
         aggregates :=
           [{ name := "Order"
              entities := [{ name := "Order", isAggregateRoot := true, properties := [] }]
              valueObjects := [{ name := "Money", properties := [] }]
              enums := [{ name := "Status", values := ["Active"] }] }] }] }


/-! ## Helper lemmas -/

theorem handleEnumLine_bcNames (s : PState) (k : Nat) (cs : List Char) :
    (handleEnumLine s k cs).bcNames = s.bcNames := rfl

theorem handleEnumLine_aggs (s : PState) (k : Nat) (cs : List Char) :
    (handleEnumLine s k cs).aggs = s.aggs := rfl

theorem pushEntProp_bcNames (s : PState) (line : String) :
    (pushEntProp s line).bcNames = s.bcNames := by
  unfold pushEntProp
  split <;> rfl

theorem pushEntProp_aggs (s : PState) (line : String) :
    (pushEntProp s line).aggs = s.aggs := by
  unfold pushEntProp
  split <;> rfl

theorem pushVOProp_bcNames (s : PState) (line : String) :
    (pushVOProp s line).bcNames = s.bcNames := by
  unfold pushVOProp
  split <;> rfl

theorem pushVOProp_aggs (s : PState) (line : String) :
    (pushVOProp s line).aggs = s.aggs := by
  unfold pushVOProp
  split <;> rfl

theorem handlePropLine_bcNames (s : PState) (line : String) :
    (handlePropLine s line).bcNames = s.bcNames := by
  unfold handlePropLine
  rw [pushVOProp_bcNames, pushEntProp_bcNames]

theorem handlePropLine_aggs (s : PState) (line : String) :
    (handlePropLine s line).aggs = s.aggs := by
  unfold handlePropLine
  rw [pushVOProp_aggs, pushEntProp_aggs]

theorem processLine_bcNames (s : PState) (l : String)
    (h : startsW "BoundedContext ".data l.data = false) :
    (processLine s l).bcNames = s.bcNames := by
  unfold processLine
  rw [if_neg (by simp [h])]
  by_cases h2 : startsW "Aggregate ".data l.data = true
  · rw [if_pos h2]
  · rw [if_neg h2]
    by_cases h3 : startsW "Entity ".data l.data = true
    · rw [if_pos h3]
    · rw [if_neg h3]
      by_cases h4 : startsW "ValueObject ".data l.data = true
      · rw [if_pos h4]
      · rw [if_neg h4]
        by_cases h5 : startsW "enum ".data l.data = true
        · rw [if_pos h5]
        · rw [if_neg h5]
          by_cases h6 : l = "\x7d" ∨ endsWithChar '\x7d' l.data = true
          · rw [if_pos h6]
          · rw [if_neg h6]
            by_cases h7 : l ≠ "" ∧ s.curEnum.isSome = true
            · rw [if_pos h7]
              cases hk : s.curEnum with
              | some k => exact handleEnumLine_bcNames _ _ _
              | none => rfl
            · rw [if_neg h7]
              by_cases h8 : l = "aggregateRoot" ∧ s.curEnt.isSome = true
              · rw [if_pos h8]
                cases hk : s.curEnt with
                | some k => rfl
                | none => rfl
              · rw [if_neg h8]
                by_cases h9 : l ≠ ""
                · rw [if_pos h9]
                  exact handlePropLine_bcNames _ _
                · rw [if_neg h9]

theorem processLine_aggs (s : PState) (l : String)
    (h : startsW "Aggregate ".data l.data = false) :
    (processLine s l).aggs = s.aggs := by
  unfold processLine
  by_cases h1 : startsW "BoundedContext ".data l.data = true
  · rw [if_pos h1]
  · rw [if_neg h1, if_neg (by simp [h])]
    by_cases h3 : startsW "Entity ".data l.data = true
    · rw [if_pos h3]
    · rw [if_neg h3]
      by_cases h4 : startsW "ValueObject ".data l.data = true
      · rw [if_pos h4]
      · rw [if_neg h4]
        by_cases h5 : startsW "enum ".data l.data = true
        · rw [if_pos h5]
        · rw [if_neg h5]
          by_cases h6 : l = "\x7d" ∨ endsWithChar '\x7d' l.data = true
          · rw [if_pos h6]
          · rw [if_neg h6]
            by_cases h7 : l ≠ "" ∧ s.curEnum.isSome = true
            · rw [if_pos h7]
              cases hk : s.curEnum with
              | some k => exact handleEnumLine_aggs _ _ _
              | none => rfl
            · rw [if_neg h7]
              by_cases h8 : l = "aggregateRoot" ∧ s.curEnt.isSome = true
              · rw [if_pos h8]
                cases hk : s.curEnt with
                | some k => rfl
                | none => rfl
              · rw [if_neg h8]
                by_cases h9 : l ≠ ""
                · rw [if_pos h9]
                  exact handlePropLine_aggs _ _
                · rw [if_neg h9]

theorem runParser_bcNames (ls : List String) (s : PState)
    (h : ∀ l ∈ ls, startsW "BoundedContext ".data l.data = false) :
    (runParser s ls).bcNames = s.bcNames := by
  induction ls generalizing s with
  | nil => rfl
  | cons l t ih =>
    have h1 := h l (List.mem_cons_self l t)
    have h2 : ∀ x ∈ t, startsW "BoundedContext ".data x.data = false :=
      fun x hx => h x (List.mem_cons_of_mem l hx)
    show (runParser (processLine s l) t).bcNames = s.bcNames
    rw [ih (processLine s l) h2, processLine_bcNames s l h1]

theorem runParser_aggs (ls : List String) (s : PState)
    (h : ∀ l ∈ ls, startsW "Aggregate ".data l.data = false) :
    (runParser s ls).aggs = s.aggs := by
  induction ls generalizing s with
  | nil => rfl
  | cons l t ih =>
    have h1 := h l (List.mem_cons_self l t)
    have h2 : ∀ x ∈ t, startsW "Aggregate ".data x.data = false :=
      fun x hx => h x (List.mem_cons_of_mem l hx)
    show (runParser (processLine s l) t).aggs = s.aggs
    rw [ih (processLine s l) h2, processLine_aggs s l h1]

theorem pushEntProp_curBC (s : PState) (line : String) :
    (pushEntProp s line).curBC = s.curBC := by
  unfold pushEntProp
  split <;> rfl

theorem pushVOProp_curBC (s : PState) (line : String) :
    (pushVOProp s line).curBC = s.curBC := by
  unfold pushVOProp
  split <;> rfl

theorem handlePropLine_curBC (s : PState) (line : String) :
    (handlePropLine s line).curBC = s.curBC := by
  unfold handlePropLine
  rw [pushVOProp_curBC, pushEntProp_curBC]

theorem stateOK_of_same (s s' : PState) (h1 : s'.curBC = s.curBC)
    (h2 : s'.bcNames = s.bcNames) (h3 : s'.aggs = s.aggs)
    (h : StateOK s) : StateOK s' := by
  unfold StateOK at *
  simp only [h1, h2, h3]
  exact h

theorem stateOK_processLine (s : PState) (l : String) (h : StateOK s) :
    StateOK (processLine s l) := by
  obtain ⟨hc, ha⟩ := h
  unfold processLine
  by_cases h1 : startsW "BoundedContext ".data l.data = true
  · rw [if_pos h1]
    constructor
    · intro i hi
      injection hi with hi
      subst hi
      simp
    · intro a hmem i hp
      have := ha a hmem i hp
      simp only [List.length_append, List.length_singleton]
      omega
  · rw [if_neg h1]
    by_cases h2 : startsW "Aggregate ".data l.data = true
    · rw [if_pos h2]
      refine ⟨hc, ?_⟩
      intro a hmem i hp
      rcases List.mem_append.mp hmem with hm | hm
      · exact ha a hm i hp
      · simp only [List.mem_singleton] at hm
        subst hm
        exact hc i hp
    · rw [if_neg h2]
      by_cases h3 : startsW "Entity ".data l.data = true
      · rw [if_pos h3]
        exact ⟨hc, ha⟩
      · rw [if_neg h3]
        by_cases h4 : startsW "ValueObject ".data l.data = true
        · rw [if_pos h4]
          exact ⟨hc, ha⟩
        · rw [if_neg h4]
          by_cases h5 : startsW "enum ".data l.data = true
          · rw [if_pos h5]
            exact ⟨hc, ha⟩
          · rw [if_neg h5]
            by_cases h6 : l = "\x7d" ∨ endsWithChar '\x7d' l.data = true
            · rw [if_pos h6]
              exact ⟨hc, ha⟩
            · rw [if_neg h6]
              by_cases h7 : l ≠ "" ∧ s.curEnum.isSome = true
              · rw [if_pos h7]
                cases hk : s.curEnum with
                | some k => exact ⟨hc, ha⟩
                | none => exact ⟨hc, ha⟩
              · rw [if_neg h7]
                by_cases h8 : l = "aggregateRoot" ∧ s.curEnt.isSome = true
                · rw [if_pos h8]
                  cases hk : s.curEnt with
                  | some k => exact ⟨hc, ha⟩
                  | none => exact ⟨hc, ha⟩
                · rw [if_neg h8]
                  by_cases h9 : l ≠ ""
                  · rw [if_pos h9]
                    exact stateOK_of_same s _ (handlePropLine_curBC s l)
                      (handlePropLine_bcNames s l) (handlePropLine_aggs s l) ⟨hc, ha⟩
                  · rw [if_neg h9]
                    exact ⟨hc, ha⟩

theorem stateOK_runParser (ls : List String) (s : PState) (h : StateOK s) :
    StateOK (runParser s ls) := by
  induction ls generalizing s with
  | nil => exact h
  | cons l t ih =>
    show StateOK (runParser (processLine s l) t)
    exact ih (processLine s l) (stateOK_processLine s l h)

theorem stateOK_initState : StateOK initState := by
  constructor
  · intro i hi
    simp [initState] at hi
  · intro a hmem
    simp [initState] at hmem

theorem processLine_aggs_extend (s : PState) (l : String) :
    ∃ t, (processLine s l).aggs = s.aggs ++ t := by
  unfold processLine
  by_cases h1 : startsW "BoundedContext ".data l.data = true
  · rw [if_pos h1]
    exact ⟨[], by simp⟩
  · rw [if_neg h1]
    by_cases h2 : startsW "Aggregate ".data l.data = true
    · rw [if_pos h2]
      exact ⟨_, rfl⟩
    · rw [if_neg h2]
      by_cases h3 : startsW "Entity ".data l.data = true
      · rw [if_pos h3]
        exact ⟨[], by simp⟩
      · rw [if_neg h3]
        by_cases h4 : startsW "ValueObject ".data l.data = true
        · rw [if_pos h4]
          exact ⟨[], by simp⟩
        · rw [if_neg h4]
          by_cases h5 : startsW "enum ".data l.data = true
          · rw [if_pos h5]
            exact ⟨[], by simp⟩
          · rw [if_neg h5]
            by_cases h6 : l = "\x7d" ∨ endsWithChar '\x7d' l.data = true
            · rw [if_pos h6]
              exact ⟨[], by simp⟩
            · rw [if_neg h6]
              by_cases h7 : l ≠ "" ∧ s.curEnum.isSome = true
              · rw [if_pos h7]
                cases hk : s.curEnum with
                | some k => exact ⟨[], by simp [handleEnumLine_aggs]⟩
                | none => exact ⟨[], by simp⟩
              · rw [if_neg h7]
                by_cases h8 : l = "aggregateRoot" ∧ s.curEnt.isSome = true
                · rw [if_pos h8]
                  cases hk : s.curEnt with
                  | some k => exact ⟨[], by simp⟩
                  | none => exact ⟨[], by simp⟩
                · rw [if_neg h8]
                  by_cases h9 : l ≠ ""
                  · rw [if_pos h9]
                    exact ⟨[], by simp [handlePropLine_aggs]⟩
                  · rw [if_neg h9]
                    exact ⟨[], by simp⟩

theorem processLine_aggs_getElem (s : PState) (l : String) (k : Nat) (a : PAgg)
    (h : s.aggs[k]? = some a) : (processLine s l).aggs[k]? = some a := by
  obtain ⟨t, ht⟩ := processLine_aggs_extend s l
  have hk : k < s.aggs.length := (List.getElem?_eq_some.mp h).1
  rw [ht, List.getElem?_append_left hk]
  exact h

theorem runParser_aggs_getElem (ls : List String) (s : PState) (k : Nat) (a : PAgg)
    (h : s.aggs[k]? = some a) : (runParser s ls).aggs[k]? = some a := by
  induction ls generalizing s with
  | nil => exact h
  | cons l t ih =>
    show (runParser (processLine s l) t).aggs[k]? = some a
    exact ih (processLine s l) (processLine_aggs_getElem s l k a h)

theorem sum_map_add {α : Type} (l : List α) (f g : α → Nat) :
    (l.map (fun x => f x + g x)).sum = (l.map f).sum + (l.map g).sum := by
  induction l with
  | nil => rfl
  | cons a t ih =>
    simp only [List.map_cons, List.sum_cons, ih]
    omega

theorem sum_indicator_range (n j : Nat) (hj : j < n) :
    ((List.range n).map (fun bi => if bi = j then (1 : Nat) else 0)).sum = 1 := by
  induction n with
  | zero => omega
  | succ n ih =>
    rw [List.range_succ, List.map_append, List.sum_append]
    by_cases h : j = n
    · subst h
      have hz : ∀ bi ∈ List.range j, (if bi = j then (1 : Nat) else 0) = 0 := by
        intro bi hbi
        simp only [List.mem_range] at hbi
        simp [Nat.ne_of_lt hbi]
      rw [List.map_congr_left hz]
      simp
    · have hj' : j < n := by omega
      rw [ih hj']
      simp [Ne.symm h]

theorem length_filterMap_enumFrom {α β : Type} (q : α → Prop) [DecidablePred q]
    (g : Nat × α → β) (l : List α) :
    ∀ i : Nat,
      ((List.enumFrom i l).filterMap
          (fun x => if q x.2 then some (g x) else none)).length
        = (l.filter (fun a => decide (q a))).length := by
  induction l with
  | nil => intro i; rfl
  | cons a t ih =>
    intro i
    show (List.filterMap _ ((i, a) :: List.enumFrom (i + 1) t)).length = _
    rw [List.filterMap_cons, List.filter_cons]
    by_cases h : q a
    · simp [h, ih (i + 1)]
    · simp [h, ih (i + 1)]

theorem count_by_parent (l : List PAgg) (n : Nat)
    (hv : ∀ a ∈ l, ∀ i, a.parent = some i → i < n) :
    ((List.range n).map
        (fun bi => (l.filter (fun a => decide (a.parent = some bi))).length)).sum
      = (l.filter (fun a => a.parent.isSome)).length := by
  induction l with
  | nil => simp
  | cons a t ih =>
    have hvt : ∀ x ∈ t, ∀ i, x.parent = some i → i < n :=
      fun x hx => hv x (List.mem_cons_of_mem a hx)
    cases hpar : a.parent with
    | none =>
      have hmap : ∀ bi ∈ List.range n,
          ((a :: t).filter (fun x => decide (x.parent = some bi))).length
            = (t.filter (fun x => decide (x.parent = some bi))).length := by
        intro bi _
        simp [List.filter_cons, hpar]
      rw [List.map_congr_left hmap, ih hvt]
      simp [List.filter_cons, hpar]
    | some j =>
      have hj : j < n := hv a (List.mem_cons_self a t) j hpar
      have hmap : ∀ bi ∈ List.range n,
          ((a :: t).filter (fun x => decide (x.parent = some bi))).length
            = (if bi = j then (1 : Nat) else 0)
                + (t.filter (fun x => decide (x.parent = some bi))).length := by
        intro bi _
        by_cases hb : bi = j
        · subst hb
          simp [List.filter_cons, hpar, Nat.add_comm]
        · have hb' : ¬ j = bi := fun hh => hb hh.symm
          simp [List.filter_cons, hpar, hb', hb]
      rw [List.map_congr_left hmap, sum_map_add, sum_indicator_range n j hj, ih hvt]
      simp [List.filter_cons, hpar, Nat.add_comm]

theorem modelAggCount_assemble (s : PState) (hok : StateOK s) :
    modelAggCount (assemble s)
      = (s.aggs.filter (fun a => a.parent.isSome)).length := by
  unfold modelAggCount assemble
  dsimp only
  rw [List.map_map]
  have h1 : ∀ bi ∈ s.bcNames.enum,
      ((fun bc => bc.aggregates.length) ∘ fun bi =>
          ({ name := bi.2
             aggregates := s.aggs.enum.filterMap (fun ai =>
               if ai.2.parent = some bi.1 then some (assembleAgg s ai.1 ai.2)
               else none) } : CMLBoundedContext)) bi
        = (fun b => (s.aggs.filter (fun a => decide (a.parent = some b))).length) bi.1 := by
    intro bi _
    show (s.aggs.enum.filterMap (fun ai =>
        if ai.2.parent = some bi.1 then some (assembleAgg s ai.1 ai.2)
        else none)).length = _
    exact length_filterMap_enumFrom (fun a => a.parent = some bi.1)
      (fun ai => assembleAgg s ai.1 ai.2) s.aggs 0
  rw [List.map_congr_left h1]
  have h2 : s.bcNames.enum.map (fun bi =>
        (fun b => (s.aggs.filter (fun a => decide (a.parent = some b))).length) bi.1)
      = (List.range s.bcNames.length).map
          (fun b => (s.aggs.filter (fun a => decide (a.parent = some b))).length) := by
    rw [← List.enum_map_fst s.bcNames, List.map_map]
    rfl
  rw [h2]
  exact count_by_parent s.aggs s.bcNames.length hok.2

/-! ## Claim theorems -/

/-- Claim C1: parsing the concrete scenario-1 input (a BoundedContext
`Sales` containing an Aggregate `Order` containing an Entity `Order` with
an `aggregateRoot` line and the property line `- Set<OrderLine> lines`)
yields exactly one bounded context "Sales" with one aggregate "Order"
containing one entity "Order" with `isAggregateRoot = true` and exactly
one property `lines : OrderLine` with `isRelation` and `isCollection`
set. -/
theorem c1_scenario1_parse : parseCML scenario1Input = scenario1Model := by
  decide

/-- Claim C2 counterexample: after the C2 prefix both an enumeration
cursor and an entity cursor are open, yet a single closing-brace line
also resets the entity cursor (the claim asserts it would stay open); and
on the full input the property line that follows the first closing brace
is consequently dropped, so entity `E` ends with no properties. -/
theorem c2_close_counterexample :
    (runParser initState c2PrefixLines).curEnum.isSome = true ∧
    (runParser initState c2PrefixLines).curEnt.isSome = true ∧
    (processLine (runParser initState c2PrefixLines) "\x7d").curEnt = none ∧
    parseCML c2Input =
      { boundedContexts :=
          [{ name := "A"
             aggregates :=
               [{ name := "B"
                  entities := [{ name := "E", isAggregateRoot := false, properties := [] }]
                  valueObjects := []
                  enums := [{ name := "Color", values := ["RED"] }] }] }] } := by
  exact ⟨by decide, by decide, by decide, by decide⟩

/-- Claim C2 (amended): a line that is exactly `}` or ends with `}` (and
does not begin with one of the five declaration keywords) closes ALL of
{enumeration, value-object, entity} that are currently open at once — the
three cursors are reset simultaneously by the single closing line, not
one level at a time in priority order — while the aggregate and
bounded-context cursors and all built structure are left untouched. -/
theorem c2_close_all_at_once (s : PState) (line : String)
    (hc : line = "\x7d" ∨ endsWithChar '\x7d' line.data = true)
    (h1 : startsW "BoundedContext ".data line.data = false)
    (h2 : startsW "Aggregate ".data line.data = false)
    (h3 : startsW "Entity ".data line.data = false)
    (h4 : startsW "ValueObject ".data line.data = false)
    (h5 : startsW "enum ".data line.data = false) :
    processLine s line = { s with curEnum := none, curVO := none, curEnt := none } := by
  unfold processLine
  rw [if_neg (by simp [h1]), if_neg (by simp [h2]), if_neg (by simp [h3]),
    if_neg (by simp [h4]), if_neg (by simp [h5]), if_pos hc]

theorem c2_close_all_at_once_witness :
    processLine (runParser initState c2PrefixLines) "\x7d" =
      { runParser initState c2PrefixLines with
          curEnum := none, curVO := none, curEnt := none } :=
  c2_close_all_at_once (runParser initState c2PrefixLines) "\x7d"
    (Or.inl rfl) (by decide) (by decide) (by decide) (by decide) (by decide)

/-- Claim C9: units opened while their parent cursor is empty are
silently discarded.  (i) If no line opens a bounded context, the parse
still succeeds and returns the empty model — aggregates, entities, value
objects and enumerations declared anywhere in such input are absent.
(ii) If no line opens an aggregate, every returned bounded context has no
aggregates, so entities / value objects / enumerations declared while no
aggregate was open are absent.  (iii) Concretely, an `Aggregate Billing`
opened before any bounded context swallows a later `Entity Invoice` (with
a parsed property) even though `BoundedContext Sales` opens in between:
the result is one empty context.  (iv) Concretely, `Entity` /
`ValueObject` / `enum` declarations with no open aggregate are all
dropped while the parser still succeeds.  (v) In general, an aggregate
pool entry is never mutated or re-attached by later lines, and (vi) the
number of aggregates in the returned model equals the number of pool
entries with an attached parent — so an aggregate created while no
bounded context was open (parent `none`) is absent from the model
whatever follows, together with everything the parser filed inside
it. -/
theorem c9_unattached_discarded (content : String) :
    ((∀ l ∈ cmlLines content, startsW "BoundedContext ".data l.data = false) →
      parseCML content = { boundedContexts := [] }) ∧
    ((∀ l ∈ cmlLines content, startsW "Aggregate ".data l.data = false) →
      ∀ bc ∈ (parseCML content).boundedContexts, bc.aggregates = []) ∧
    parseCML c9OrphanAggInput =
      { boundedContexts := [{ name := "Sales", aggregates := [] }] } ∧
    parseCML c9OrphanUnitsInput =
      { boundedContexts := [{ name := "S", aggregates := [] }] } ∧
    (∀ (s : PState) (ls : List String) (k : Nat) (a : PAgg),
      s.aggs[k]? = some a → (runParser s ls).aggs[k]? = some a) ∧
    modelAggCount (parseCML content) =
      ((runParser initState (cmlLines content)).aggs.filter
        (fun a => a.parent.isSome)).length := by
  refine ⟨fun hA => ?_, fun hB bc hbc => ?_, by decide, by decide,
    fun s ls k a h => runParser_aggs_getElem ls s k a h,
    modelAggCount_assemble _ (stateOK_runParser (cmlLines content) initState stateOK_initState)⟩
  · have hbc : (runParser initState (cmlLines content)).bcNames = [] := by
      rw [runParser_bcNames (cmlLines content) initState hA]
      rfl
    unfold parseCML assemble
    rw [hbc]
    rfl
  · have hag : (runParser initState (cmlLines content)).aggs = [] := by
      rw [runParser_aggs (cmlLines content) initState hB]
      rfl
    unfold parseCML assemble at hbc
    simp only [hag] at hbc
    simp only [List.mem_map] at hbc
    obtain ⟨bi, _, rfl⟩ := hbc
    rfl

theorem c9_unattached_discarded_witness :
    parseCML c9NoContextInput = { boundedContexts := [] } :=
  (c9_unattached_discarded c9NoContextInput).1 (by decide)

/-- Claim C10: `parseProperty` treats any occurrence of the substring
`nullable` in the (comment-stripped, trimmed) line as the nullable
marker: whenever a property is returned, its `nullable` flag equals the
substring test; every marker occurrence is deleted together with adjacent
whitespace before the type/name split, so `String nullableFlag` collapses
to the single token `StringFlag` and yields no property, while
`nullableString x y` (marker glued to the type) still parses with
`nullable = true`. -/
theorem c10_nullable_marker (line : String) (p : CMLProperty)
    (h : parseProperty line = some p) :
    p.nullable = containsSub "nullable".data (trimL (cutFromSub "//".data line.data)) ∧
    parseProperty "String nullableFlag" = none ∧
    parseProperty "String name nullable" =
      some { name := "name", type := "String", nullable := true, isRelation := false,
             isCollection := false, isEnum := false } ∧
    parseProperty "nullableString x y" =
      some { name := "x", type := "String", nullable := true, isRelation := false,
             isCollection := false, isEnum := false } := by
  refine ⟨?_, by decide, by decide, by decide⟩
  unfold parseProperty at h
  dsimp only at h
  split at h
  · exact absurd h (by simp)
  · split at h
    · injection h with h'
      subst h'
      rfl
    · exact absurd h (by simp)

theorem c10_nullable_marker_witness :
    ({ name := "name", type := "String", nullable := true, isRelation := false,
       isCollection := false, isEnum := false } : CMLProperty).nullable =
      containsSub "nullable".data
        (trimL (cutFromSub "//".data "String name nullable".data)) ∧
    parseProperty "String nullableFlag" = none ∧
    parseProperty "String name nullable" =
      some { name := "name", type := "String", nullable := true, isRelation := false,
             isCollection := false, isEnum := false } ∧
    parseProperty "nullableString x y" =
      some { name := "x", type := "String", nullable := true, isRelation := false,
             isCollection := false, isEnum := false } :=
  c10_nullable_marker "String name nullable" _ (by decide)

theorem cleanEnumValue_eq_spec (v : String) :
    cleanEnumValue v = specNormalizeLabel v := by
  unfold cleanEnumValue specNormalizeLabel jsToUpper
  congr 1
  rw [List.map_map]
  refine List.map_congr_left (fun c _ => ?_)
  by_cases h : isWordChar c = true
  · simp [Function.comp, h]
  · simp only [Function.comp, Bool.not_eq_true] at h
    simp [h]

/-- Claim C3: for every enumeration value label, the emitted case
identifier and its string backing value are both the source label
upper-cased with every character outside `[A-Za-z0-9_]` replaced by `_`
(`specNormalizeLabel` transcribes the spec's wording); in particular the
labels `Active`, `Inactive`, `pending-review` produce `ACTIVE`,
`INACTIVE`, `PENDING_REVIEW` with identical backing strings. -/
theorem c3_enum_normalization (e : CMLEnum) (cfg : GeneratorConfig)
    (b a o : Option String) :
    (generateEnum e cfg b a o).enumCases =
      e.values.map (fun v =>
        { name := specNormalizeLabel v, value := specNormalizeLabel v }) ∧
    (generateEnum { name := "Status", values := ["Active", "Inactive", "pending-review"] }
        cfg b a o).enumCases =
      [{ name := "ACTIVE", value := "ACTIVE" },
       { name := "INACTIVE", value := "INACTIVE" },
       { name := "PENDING_REVIEW", value := "PENDING_REVIEW" }] := by
  constructor
  · show e.values.map (fun v =>
        ({ name := cleanEnumValue v, value := cleanEnumValue v } : PhpEnumCase)) = _
    exact List.map_congr_left (fun v _ => by rw [cleanEnumValue_eq_spec])
  · rfl

theorem pairwise_rank_of_sections (A B C : List GeneratedFile)
    (hA : ∀ f ∈ A, f.type = UnitKind.enum)
    (hB : ∀ f ∈ B, f.type = UnitKind.valueobject)
    (hC : ∀ f ∈ C, f.type = UnitKind.entity) :
    List.Pairwise (fun f g : GeneratedFile => kindRank f.type ≤ kindRank g.type)
      (A ++ B ++ C) := by
  rw [List.pairwise_append, List.pairwise_append]
  refine ⟨⟨?_, ?_, ?_⟩, ?_, ?_⟩
  · exact List.pairwise_of_forall_mem_list
      (fun f hf g hg => by rw [hA f hf, hA g hg])
  · exact List.pairwise_of_forall_mem_list
      (fun f hf g hg => by rw [hB f hf, hB g hg])
  · intro f hf g hg
    rw [hA f hf, hB g hg]
    decide
  · exact List.pairwise_of_forall_mem_list
      (fun f hf g hg => by rw [hC f hf, hC g hg])
  · intro f hf g hg
    rw [hC g hg]
    rcases List.mem_append.mp hf with h | h
    · rw [hA f h]; decide
    · rw [hB f h]; decide

/-- Claim C4: within one aggregate's portion of the returned file list,
file kinds are emitted in nondecreasing rank (enumerations, then value
objects, then entities), so every enumeration file precedes every
value-object file and every value-object file precedes every entity
file. -/
theorem c4_aggregate_file_order (eng : RegexEngine) (cfg : GeneratorConfig)
    (bcName : String) (agg : CMLAggregate) :
    List.Pairwise (fun f g : GeneratedFile => kindRank f.type ≤ kindRank g.type)
      (filesForAggregate eng cfg bcName agg) := by
  unfold filesForAggregate
  dsimp only
  apply pairwise_rank_of_sections
  · intro f hf
    simp only [List.mem_map] at hf
    obtain ⟨x, _, rfl⟩ := hf
    rfl
  · intro f hf
    simp only [List.mem_map] at hf
    obtain ⟨x, _, rfl⟩ := hf
    rfl
  · intro f hf
    simp only [List.mem_map] at hf
    obtain ⟨x, _, rfl⟩ := hf
    rfl

theorem filesForAggregate_length (eng : RegexEngine) (cfg : GeneratorConfig)
    (bcName : String) (agg : CMLAggregate) :
    (filesForAggregate eng cfg bcName agg).length =
      agg.enums.length + agg.valueObjects.length + agg.entities.length := by
  unfold filesForAggregate
  dsimp only
  simp [List.length_append, List.length_map, Nat.add_assoc]

theorem generatePHP_length (eng : RegexEngine) (model : CMLModel)
    (cfg : GeneratorConfig) :
    (generatePHP eng model cfg).length = modelUnitCount model := by
  unfold generatePHP modelUnitCount
  rw [List.length_flatten, List.map_map]
  congr 1
  refine List.map_congr_left (fun bc _ => ?_)
  simp only [Function.comp]
  rw [List.length_flatten, List.map_map]
  congr 1
  refine List.map_congr_left (fun agg _ => ?_)
  simp only [Function.comp]
  rw [filesForAggregate_length]

/-- Claim C5: the number of files returned by `generatePHP` equals the
total number of enumerations plus value objects plus entities across all
aggregates of all bounded contexts of the model, for every model and
configuration (and any regular-expression engine behaviour). -/
theorem c5_file_count (eng : RegexEngine) (model : CMLModel)
    (cfg : GeneratorConfig) :
    (generatePHP eng model cfg).length = modelUnitCount model :=
  generatePHP_length eng model cfg

/-- Claim C6: when the readonly option is requested and the configured
PHP version meets the 8.2 threshold, the emitted value-object class
contains no setter methods — every method is the constructor or a getter,
whatever the setter option says — and every declared property appears as
a constructor parameter (the effective constructor policy is forced to
`all`). -/
theorem c6_readonly_value_object (vo : CMLValueObject) (cfg : GeneratorConfig)
    (b a o : Option String)
    (hro : cfg.readonlyValueObjects = some true)
    (_hver : phpVersionAtLeast82 cfg = true) :
    (∀ m ∈ (generateValueObject vo cfg b a o).methods,
        m.name = "__construct" ∨
          ∃ p ∈ vo.properties, m.name = "get" ++ capitalize p.name) ∧
    (vo.properties ≠ [] →
      ∃ ctor ∈ (generateValueObject vo cfg b a o).methods,
        ctor.name = "__construct" ∧
        ctor.params.map (fun pr => pr.name) = vo.properties.map (fun p => p.name)) := by
  have hopt : optTrue cfg.readonlyValueObjects = true := by rw [hro]; rfl
  constructor
  · intro m hm
    unfold generateValueObject at hm
    simp only [hopt, Bool.not_true, Bool.and_false, if_true, if_false,
      PhpSourceFile.methods, Bool.false_eq_true, List.mem_append] at hm
    rcases hm with hm | hm
    · split at hm
      · simp only [List.mem_singleton] at hm
        subst hm
        left
        rfl
      · simp at hm
    · simp only [List.mem_flatten, List.mem_map] at hm
      obtain ⟨l, ⟨p, hp, rfl⟩, hml⟩ := hm
      simp only [List.append_nil] at hml
      split at hml
      · simp only [List.mem_singleton] at hml
        subst hml
        right
        exact ⟨p, hp, rfl⟩
      · simp at hml
  · intro hne
    have hcond : CtorType.all ≠ CtorType.none ∧ vo.properties.length > 0 :=
      ⟨by decide, List.length_pos.mpr hne⟩
    unfold generateValueObject
    simp only [hopt, Bool.not_true, Bool.and_false, if_true, if_false,
      PhpSourceFile.methods, Bool.false_eq_true]
    rw [if_pos hcond, if_pos (by decide : CtorType.all ≠ CtorType.none),
      if_neg (by decide : ¬ CtorType.all = CtorType.required)]
    refine ⟨_, List.mem_append_left _ (List.mem_singleton_self _), rfl, ?_⟩
    rw [List.map_map]
    exact List.map_congr_left (fun p _ => rfl)

theorem c6_readonly_value_object_witness :
    (∀ m ∈ (generateValueObject voDemo cfgPlainDemo none none none).methods,
        m.name = "__construct" ∨
          ∃ p ∈ voDemo.properties, m.name = "get" ++ capitalize p.name) ∧
    (voDemo.properties ≠ [] →
      ∃ ctor ∈ (generateValueObject voDemo cfgPlainDemo none none none).methods,
        ctor.name = "__construct" ∧
        ctor.params.map (fun pr => pr.name) = voDemo.properties.map (fun p => p.name)) :=
  c6_readonly_value_object voDemo cfgPlainDemo none none none rfl rfl

/-- Claim C7 counterexample: in the earlier `mapTypeToPHP` revision kept
in the repository (primitive names checked before the collection flag), a
collection property is NOT mapped independently of its element's
primitive mapping: with the plain framework, a collection of `string`
maps to `"string"` while a collection of a sibling reference maps to
`"array"`, although both properties are collections with the same
relation flag. -/
theorem c7_collection_mapping_counterexample :
    propStrColl.isCollection = true ∧ propRefColl.isCollection = true ∧
    propStrColl.isRelation = propRefColl.isRelation ∧
    LegacyGen.mapTypeToPHP cfgPlainDemo propStrColl = "string" ∧
    LegacyGen.mapTypeToPHP cfgPlainDemo propRefColl = "array" ∧
    LegacyGen.mapTypeToPHP cfgPlainDemo propStrColl ≠
      LegacyGen.mapTypeToPHP cfgPlainDemo propRefColl := by
  exact ⟨rfl, rfl, rfl, by decide, by decide, by decide⟩

/-- Claim C7 (amended): the current `mapTypeToPHP` checks the collection
flag before the primitive table, so for every two collection properties
with non-blank declared types and the same relation flag it returns the
same framework-chosen collection representation, whatever the element
types are; the earlier revision checks primitive names first and violates
this (see the counterexample). -/
theorem c7_collection_mapping_amended (cfg : GeneratorConfig)
    (p q : CMLProperty)
    (hp : p.isCollection = true) (hq : q.isCollection = true)
    (hrel : p.isRelation = q.isRelation)
    (hpt : jsTrim p.type ≠ "") (hqt : jsTrim q.type ≠ "") :
    mapTypeToPHP cfg p = mapTypeToPHP cfg q := by
  have hp0 : ¬ (p.type = "" ∨ jsTrim p.type = "") := by
    rintro (h | h)
    · exact hpt (by rw [h]; rfl)
    · exact hpt h
  have hq0 : ¬ (q.type = "" ∨ jsTrim q.type = "") := by
    rintro (h | h)
    · exact hqt (by rw [h]; rfl)
    · exact hqt h
  unfold mapTypeToPHP
  rw [if_neg hp0, if_pos hp, if_neg hq0, if_pos hq, hrel]

theorem c7_collection_mapping_witness :
    mapTypeToPHP cfgPlainDemo propStrColl = mapTypeToPHP cfgPlainDemo propRefColl :=
  c7_collection_mapping_amended cfgPlainDemo propStrColl propRefColl
    rfl rfl rfl (by decide) (by decide)

/-- Claim C8 counterexample: the first rule's pattern matches the unit
name `abc` and its kind filter is absent, yet path resolution does not
select it — the source also requires a nonempty subfolder, so it skips
the rule and the second rule wins.  The claim's "first rule whose pattern
matches (and whose kind filter, if present, matches) wins" is therefore
false as stated. -/
theorem c8_rule_selection_counterexample :
    litRegex.test c8Rule1.pattern "abc" = some true ∧
    c8Rule1.typeFolder = none ∧
    getSubfolderForFile litRegex "abc" UnitKind.entity [c8Rule1, c8Rule2] =
      { subfolder := "Sub", nameReplace := none } ∧
    getSubfolderForFile litRegex "abc" UnitKind.entity [c8Rule1, c8Rule2] ≠
      { subfolder := c8Rule1.subfolder, nameReplace := c8Rule1.nameReplace } := by
  exact ⟨by decide, rfl, by decide, by decide⟩

/-- Claim C8 (amended): path resolution selects the first rule with a
nonempty pattern and a nonempty subfolder whose pattern matches the
unit's original name and whose kind filter, if present, matches the
unit's kind (`ruleAccepts`); a rule whose match pattern fails to compile
is treated as non-matching, a name-strip pattern that fails to compile
leaves the name unchanged, and generation never aborts — the pipeline
returns the complete file list, one file per unit, for every rule
list. -/
theorem c8_rule_selection_amended (eng : RegexEngine) (filename : String)
    (ft : UnitKind) (ms : List RegexPatternMapping) (nr : String)
    (model : CMLModel) (cfg : GeneratorConfig) :
    (getSubfolderForFile eng filename ft ms =
      (match ms.find? (ruleAccepts eng filename ft) with
       | some m => { subfolder := m.subfolder, nameReplace := m.nameReplace }
       | none => { subfolder := "", nameReplace := none })) ∧
    (eng.replaceFirst nr filename = none →
      applyNameReplace eng filename (some nr) = filename) ∧
    (generatePHP eng model cfg).length = modelUnitCount model := by
  refine ⟨?_, ?_, generatePHP_length eng model cfg⟩
  · induction ms with
    | nil => rfl
    | cons m rest ih =>
      simp only [getSubfolderForFile]
      by_cases h1 : m.typeFolder.isSome ∧ m.typeFolder ≠ some ft
      · rw [if_pos h1, ih]
        have hra : ruleAccepts eng filename ft m = false := by
          obtain ⟨h1a, h1b⟩ := h1
          obtain ⟨x, hx⟩ := Option.isSome_iff_exists.mp h1a
          simp [ruleAccepts, hx]
          intro hxe
          exact absurd (by rw [hx, hxe]) h1b
        rw [List.find?_cons, hra]
      · rw [if_neg h1]
        have hkind : (m.typeFolder = none || m.typeFolder = some ft) = true := by
          rcases Decidable.not_and_iff_or_not.mp h1 with h | h
          · simp [Option.not_isSome_iff_eq_none.mp (by simpa using h)]
          · simp at h
            simp [h]
        by_cases h2 : m.pattern = "" ∨ m.subfolder = ""
        · rw [if_pos h2, ih]
          have hra : ruleAccepts eng filename ft m = false := by
            rcases h2 with h | h <;> simp [ruleAccepts, h]
          rw [List.find?_cons, hra]
        · rw [if_neg h2]
          have hp : m.pattern ≠ "" := fun h => h2 (Or.inl h)
          have hs : m.subfolder ≠ "" := fun h => h2 (Or.inr h)
          cases ht : eng.test m.pattern filename with
          | some b =>
            cases b with
            | true =>
              have hra : ruleAccepts eng filename ft m = true := by
                simp [ruleAccepts, hkind, hp, hs, ht]
              rw [List.find?_cons, hra]
            | false =>
              have hra : ruleAccepts eng filename ft m = false := by
                simp [ruleAccepts, ht]
              rw [List.find?_cons, hra, ih]
          | none =>
            have hra : ruleAccepts eng filename ft m = false := by
              simp [ruleAccepts, ht]
            rw [List.find?_cons, hra, ih]
  · intro hfail
    unfold applyNameReplace
    dsimp only
    by_cases hnr : nr = ""
    · rw [if_pos hnr]
    · rw [if_neg hnr, hfail]

theorem c8_rule_selection_witness :
    applyNameReplace litRegex "abc" (some "(") = "abc" ∧
    getSubfolderForFile litRegex "abc" UnitKind.entity [c8Rule1, c8Rule2] =
      (match [c8Rule1, c8Rule2].find? (ruleAccepts litRegex "abc" UnitKind.entity) with
       | some m => { subfolder := m.subfolder, nameReplace := m.nameReplace }
       | none => { subfolder := "", nameReplace := none }) ∧
    (generatePHP litRegex c8DemoModel cfgPlainDemo).length = modelUnitCount c8DemoModel :=
  ⟨(c8_rule_selection_amended litRegex "abc" UnitKind.entity [c8Rule1, c8Rule2] "("
      c8DemoModel cfgPlainDemo).2.1 (by decide),
   (c8_rule_selection_amended litRegex "abc" UnitKind.entity [c8Rule1, c8Rule2] "("
      c8DemoModel cfgPlainDemo).1,
   (c8_rule_selection_amended litRegex "abc" UnitKind.entity [c8Rule1, c8Rule2] "("
      c8DemoModel cfgPlainDemo).2.2⟩
